import Mathlib

/-!
Shallow embedding of the synchronization core of `world/views.py`
(bardo-web): the property store, the permission engine
(`map_permissions`), and the campaign action sync protocol
(`update_actions`), together with theorems settling the spec's claims.

Users are identified by their numeric id; a property row's `user` field
is `none` for the default scope (SQL NULL).  Timestamps are modelled as
naturals; the store assigns strictly increasing creation times.
-/

namespace World

/-- A property row (`MapProperty` in `world/models.py`): scope user
(`none` = default scope), name, and opaque string value. -/
structure MapProperty where
  user : Option Nat
  name : String
  value : String
deriving DecidableEq

/-- Campaign properties have the same shape as map properties. -/
abbrev CampaignProperty := MapProperty

/-- The fixed enumeration of permission property names
(`PERMISSIONS` in `world/views.py`). -/
def PERMISSIONS : List String :=
  ["SHARED_NAME", "SHARED_POSITION", "SHARED_VISION", "SHARED_CONTROL",
   "SHARED_HEALTH", "SHARED_STAMINA", "SHARED_MANA"]

/-- The dict literal in `map_permissions` mapping the request's
permission kind to the stored property name. -/
def PERM_TABLE : List (String × String) :=
  [("name", "SHARED_NAME"), ("position", "SHARED_POSITION"),
   ("vision", "SHARED_VISION"), ("control", "SHARED_CONTROL"),
   ("health", "SHARED_HEALTH"), ("stamina", "SHARED_STAMINA"),
   ("mana", "SHARED_MANA")]

/-- Dict lookup `{...}[perm]`; `none` models the `KeyError` raised on an
unrecognized kind. -/
def permKind (perm : String) : Option String :=
  (PERM_TABLE.find? (fun kv => kv.1 = perm)).map (·.2)

/-- One entry of the `permissions` list in the batch-assign request
body: entity id, target player (`none` = JSON null = default scope),
and permission kind string. -/
structure PermEntry where
  entity : String
  player : Option Nat
  perm : String
deriving DecidableEq

/-- The loop body state of `map_permissions`: remaining entries, the
`player_reset` list, and the map's property rows.  Mirrors
`world/views.py` lines 398-426: for each entry, look the kind up in the
dict (a `KeyError` aborts the request with status 500, keeping the rows
already written); if the target scope has not been reset yet in this
batch, delete every permission-kind row of that scope whose value is
the entity; then `get_or_create` the new row. -/
def runPermissions :
    List PermEntry → List (Option Nat) → List MapProperty →
    Nat × List MapProperty
  | [], _, props => (200, props)
  | e :: rest, playerReset, props =>
    match permKind e.perm with
    | none => (500, props)
    | some pname =>
      let cleared :=
        if e.player ∈ playerReset then props
        else props.filter (fun p =>
          decide (¬(p.user = e.player ∧ p.name ∈ PERMISSIONS ∧
                    p.value = e.entity)))
      let playerReset1 :=
        if e.player ∈ playerReset then playerReset
        else playerReset ++ [e.player]
      let next :=
        if cleared.any (fun p =>
            decide (p.user = e.player ∧ p.name = pname ∧
                    p.value = e.entity))
        then cleared
        else cleared ++ [⟨e.player, pname, e.entity⟩]
      runPermissions rest playerReset1 next

/-- `map_permissions` (POST batch assign): returns the response status
and the map's property rows after the call.  Rows written before an
error persist (each statement commits on its own). -/
def map_permissions (entries : List PermEntry) (props : List MapProperty) :
    Nat × List MapProperty :=
  runPermissions entries [] props

/-- An action row (`Action` in `world/models.py`): authoring user,
optional map reference, opaque payload, and creation timestamp assigned
by the store at insert time. -/
structure Action where
  user : Nat
  mapRef : Option String
  payload : String
  created : Nat
deriving DecidableEq

/-- One item of the `actions` list posted to `update_actions`: an
optional target map id (`action.get('map')`, falsy = absent) and the
opaque payload. -/
structure PostedAction where
  mapRef : Option String
  payload : String
deriving DecidableEq

/-- The append loop of `update_actions` (lines 526-531): each posted
action is inserted with the caller as author and the store's insertion
time; an entry naming a map id absent from the campaign raises
`Http404`, aborting the loop with the rows inserted so far kept
(each insert commits on its own).  Returns (success flag, log,
next insertion time). -/
def appendLoop (maps : List String) (caller : Nat) :
    List PostedAction → List Action → Nat → Bool × List Action × Nat
  | [], log, t => (true, log, t)
  | a :: rest, log, t =>
    match a.mapRef with
    | some m =>
      if m ∈ maps then
        appendLoop maps caller rest (log ++ [⟨caller, some m, a.payload, t⟩]) (t + 1)
      else (false, log, t)
    | none =>
      appendLoop maps caller rest (log ++ [⟨caller, none, a.payload, t⟩]) (t + 1)

/-- Response of the campaign sync endpoint: status, `date` (the new
cursor, absent on error), the delivered actions, and the persisted
action log after the call. -/
structure SyncResult where
  status : Nat
  date : Option Nat
  actions : List Action
  log : List Action
deriving DecidableEq

/-- `update_actions` (POST campaign sync at a cursor): appends the
posted actions, then queries `created > cursor`, takes the last such
row's timestamp as the new cursor (or keeps the cursor if none), and
returns the fresh rows excluding those authored by the caller.
`maps` is the campaign's set of map ids, `t0` the store's next
insertion timestamp. -/
def update_actions (maps : List String) (caller : Nat) (cursor : Nat)
    (posted : List PostedAction) (log : List Action) (t0 : Nat) : SyncResult :=
  match appendLoop maps caller posted log t0 with
  | (false, log1, _) => ⟨404, none, [], log1⟩
  | (true, log1, _) =>
    let fresh := log1.filter (fun a => decide (cursor < a.created))
    let date :=
      match fresh.getLast? with
      | some a => a.created
      | none => cursor
    ⟨200, some date, fresh.filter (fun a => decide (¬a.user = caller)), log1⟩

/-- `load_map_properties` (GET bulk map properties for the caller,
lines 281-283): the rows whose scope is the caller or the default
scope, as (name, value) pairs — a plain union of the two scopes. -/
def load_map_properties (props : List MapProperty) (user : Nat) :
    List (String × String) :=
  (props.filter (fun p => decide (p.user = some user ∨ p.user = none))).map
    (fun p => (p.name, p.value))

/-- `load_map_properties_for_user` (GET bulk map properties keyed to an
arbitrary target user id, lines 306-308): same query as
`load_map_properties` with the target user in place of the caller. -/
def load_map_properties_for_user (props : List MapProperty) (user_id : Nat) :
    List (String × String) :=
  (props.filter (fun p => decide (p.user = some user_id ∨ p.user = none))).map
    (fun p => (p.name, p.value))

/-- `load_campaign_property` (GET single property, lines 79-96):
`props[0]` of the user-scoped query if non-empty, else
`get_object_or_404` on the default scope (0 rows → 404, several rows →
`MultipleObjectsReturned` → 500).  Returns (status, value). -/
def load_campaign_property (props : List CampaignProperty) (user : Nat)
    (name : String) : Nat × Option String :=
  match props.filter (fun p => decide (p.user = some user ∧ p.name = name)) with
  | p :: _ => (200, some p.value)
  | [] =>
    match props.filter (fun p => decide (p.user = none ∧ p.name = name)) with
    | [] => (404, none)
    | [q] => (200, some q.value)
    | _ :: _ :: _ => (500, none)

/-- `load_campaign` (GET campaign detail, lines 42-72), for an existing
campaign: resolves the caller's properties with default rows shadowed
by user rows, then `get_object_or_404` on the sole `IS_MASTER` row
(0 rows → 404, several → 500, a row with a NULL user → `AttributeError`
on `.user.username` → 500); building the players list dereferences
`.username` of each `IS_PLAYER` row's user, so a NULL user there is a
500 as well.  Returns (status, resolved properties). -/
def load_campaign (props : List CampaignProperty) (user : Nat) :
    Nat × List (String × String) :=
  let userProps := props.filter (fun p => decide (p.user = some user))
  let names := userProps.map (·.name)
  let merged := userProps.map (fun p => (p.name, p.value)) ++
    (props.filter (fun p => decide (p.user = none ∧ ¬p.name ∈ names))).map
      (fun p => (p.name, p.value))
  match props.filter (fun p => decide (p.name = "IS_MASTER")) with
  | [] => (404, [])
  | [m] =>
    match m.user with
    | some _ =>
      if (props.filter (fun p => decide (p.name = "IS_PLAYER"))).all
          (fun p => p.user.isSome)
      then (200, merged) else (500, [])
    | none => (500, [])
  | _ :: _ :: _ => (500, [])

example :
    map_permissions [⟨"e", some 2, "control"⟩]
      [⟨some 1, "SHARED_CONTROL", "e"⟩]
      = (200, [⟨some 1, "SHARED_CONTROL", "e"⟩,
               ⟨some 2, "SHARED_CONTROL", "e"⟩]) := by decide

/-- Every property name produced by the kind dict is one of the seven
permission names. -/
lemma permKind_mem {k pname : String} (hk : permKind k = some pname) :
    pname ∈ PERMISSIONS := by
  unfold permKind at hk
  rcases hfind : PERM_TABLE.find? (fun kv => decide (kv.1 = k)) with _ | kv
  · rw [hfind] at hk; exact absurd hk (by simp)
  · rw [hfind] at hk
    have hmem := List.mem_of_find?_eq_some hfind
    have : kv.2 = pname := by simpa using hk
    subst this
    revert hmem
    have : ∀ kv ∈ PERM_TABLE, kv.2 ∈ PERMISSIONS := by decide
    exact this kv

/-- Characterization of a single-entry batch assign: the call succeeds,
deletes every permission-kind row in the target scope whose value is
the entity, and appends the new row. -/
lemma map_permissions_single (props : List MapProperty) (E k pname : String)
    (scope : Option Nat) (hk : permKind k = some pname) :
    map_permissions [⟨E, scope, k⟩] props
      = (200,
         props.filter (fun p =>
           decide (¬(p.user = scope ∧ p.name ∈ PERMISSIONS ∧ p.value = E)))
           ++ [⟨scope, pname, E⟩]) := by
  unfold map_permissions runPermissions
  rw [hk]
  simp only [List.not_mem_nil, if_false, if_neg (fun h => h)]
  have hany : (props.filter (fun p =>
      decide (¬(p.user = scope ∧ p.name ∈ PERMISSIONS ∧ p.value = E)))).any
      (fun p => decide (p.user = scope ∧ p.name = pname ∧ p.value = E))
      = false := by
    rw [List.any_eq_false]
    intro p hp
    rw [List.mem_filter] at hp
    simp only [decide_eq_true_eq] at hp ⊢
    rintro ⟨hu, hn, hv⟩
    exact hp.2 ⟨hu, hn ▸ permKind_mem hk, hv⟩
  simp [hany, runPermissions]
  intro x hx hdisj hu hn
  rcases hdisj with h | h | h
  · exact absurd hu h
  · exact absurd (hn ▸ permKind_mem hk) h
  · exact h

/-- C1 fails on the code: reassigning `control` for entity `e` from
user 1 to user 2 leaves TWO `control` rows for `e` — the prior owner's
row is not cleared, because the clearing is scoped to the new owner
only. -/
theorem c1_counterexample :
    ¬(((map_permissions [⟨"e", some 2, "control"⟩]
          [⟨some 1, "SHARED_CONTROL", "e"⟩]).2).filter
        (fun p => decide (p.name = "SHARED_CONTROL" ∧ p.value = "e"))).length = 1
    ∧ (⟨some 1, "SHARED_CONTROL", "e"⟩ : MapProperty) ∈
        (map_permissions [⟨"e", some 2, "control"⟩]
          [⟨some 1, "SHARED_CONTROL", "e"⟩]).2 := by
  exact ⟨by decide, by decide⟩

/-- C1 amended: after `assign` gives attribute `control` for entity `E`
to user `B`, the `control` rows for `E` are exactly the previously
existing ones NOT scoped to `B`, plus one new row owned by `B`; rows of
prior owners other than `B` (a user's or the default scope's) survive. -/
theorem c1_control_reassign (props : List MapProperty) (E : String) (B : Nat) :
    (map_permissions [⟨E, some B, "control"⟩] props).1 = 200 ∧
    ((map_permissions [⟨E, some B, "control"⟩] props).2).filter
        (fun p => decide (p.name = "SHARED_CONTROL" ∧ p.value = E))
      = props.filter (fun p =>
          decide (p.name = "SHARED_CONTROL" ∧ p.value = E ∧ ¬p.user = some B))
        ++ [⟨some B, "SHARED_CONTROL", E⟩] := by
  rw [map_permissions_single props E "control" "SHARED_CONTROL" (some B) rfl]
  refine ⟨rfl, ?_⟩
  rw [List.filter_append, List.filter_filter]
  have hrow : ([(⟨some B, "SHARED_CONTROL", E⟩ : MapProperty)].filter
      (fun p => decide (p.name = "SHARED_CONTROL" ∧ p.value = E)))
      = [⟨some B, "SHARED_CONTROL", E⟩] := by simp
  rw [hrow]
  refine congrArg (· ++ _) (List.filter_congr ?_)
  intro p _
  have hmem : p.name = "SHARED_CONTROL" → p.name ∈ PERMISSIONS := by
    intro h; rw [h]; decide
  refine Bool.eq_iff_iff.mpr ?_
  simp only [Bool.and_eq_true, decide_eq_true_eq]
  constructor
  · rintro ⟨⟨hn, hv⟩, hneg⟩
    exact ⟨hn, hv, fun hu => hneg ⟨hu, hmem hn, hv⟩⟩
  · rintro ⟨hn, hv, hu⟩
    exact ⟨⟨hn, hv⟩, fun h => hu h.1⟩

/-- C5 fails on the code: an unrecognized permission kind raises
`KeyError`, which the generic handler converts to status 500
(INTERNAL), not 400 (MALFORMED_INPUT). -/
theorem c5_counterexample :
    (map_permissions [⟨"e", some 1, "teleport"⟩] []).1 = 500 ∧
    ¬(map_permissions [⟨"e", some 1, "teleport"⟩] []).1 = 400 := by
  exact ⟨by decide, by decide⟩

/-- The loop stops at the first entry whose kind is not in the dict:
the request ends with status 500 and the rows are exactly those left by
the entries processed before it (each write committed on its own). -/
lemma runPermissions_stops_at_bad :
    ∀ (pre : List PermEntry) (bad : PermEntry) (rest : List PermEntry)
      (pr : List (Option Nat)) (props : List MapProperty),
      (∀ e ∈ pre, (permKind e.perm).isSome) →
      permKind bad.perm = none →
      runPermissions (pre ++ bad :: rest) pr props
        = (500, (runPermissions pre pr props).2) := by
  intro pre
  induction pre with
  | nil =>
    intro bad rest pr props _ hbad
    simp only [List.nil_append]
    unfold runPermissions
    rw [hbad]
  | cons e pre' ih =>
    intro bad rest pr props hpre hbad
    have he := hpre e (List.mem_cons_self e pre')
    rcases hk : permKind e.perm with _ | pname
    · rw [hk] at he
      simp at he
    · simp only [List.cons_append]
      unfold runPermissions
      rw [hk]
      exact ih bad rest _ _ (fun x hx => hpre x (List.mem_cons_of_mem e hx)) hbad

/-- C5 amended: a batch formed of recognized entries followed by an
entry with an unrecognized permission kind (and anything after it)
fails with status 500 (INTERNAL, from the uncaught `KeyError` naming
the kind), not 400; the rows written by the earlier recognized entries
persist — the final rows are those left by processing exactly those
entries. -/
theorem c5_unknown_kind_internal (pre : List PermEntry) (bad : PermEntry)
    (rest : List PermEntry) (props : List MapProperty)
    (hpre : ∀ e ∈ pre, (permKind e.perm).isSome)
    (hbad : permKind bad.perm = none) :
    (map_permissions (pre ++ bad :: rest) props).1 = 500 ∧
    (map_permissions (pre ++ bad :: rest) props).2
      = (map_permissions pre props).2 := by
  unfold map_permissions
  rw [runPermissions_stops_at_bad pre bad rest [] props hpre hbad]
  exact ⟨rfl, rfl⟩

/-- Witness for `c5_unknown_kind_internal` at a concrete input: a valid
`control` assignment followed by an unrecognized kind gives 500 with
the first entry's row committed. -/
theorem c5_unknown_kind_internal_witness :
    (map_permissions [⟨"e", some 1, "control"⟩, ⟨"e", some 1, "teleport"⟩]
        []).1 = 500 ∧
    (map_permissions [⟨"e", some 1, "control"⟩, ⟨"e", some 1, "teleport"⟩]
        []).2
      = (map_permissions [⟨"e", some 1, "control"⟩] []).2 :=
  c5_unknown_kind_internal [⟨"e", some 1, "control"⟩]
    ⟨"e", some 1, "teleport"⟩ [] [] (by decide) rfl

/-- C6 confirmed: assigning `vision` on `goblin1` to the default scope
when `goblin1` has no prior vision owner succeeds and leaves exactly
one `SHARED_VISION` row with value `goblin1`, default-scoped and newly
created. -/
theorem c6_vision_default_assign (props : List MapProperty)
    (hno : ∀ p ∈ props, ¬(p.name = "SHARED_VISION" ∧ p.value = "goblin1")) :
    (map_permissions [⟨"goblin1", none, "vision"⟩] props).1 = 200 ∧
    ((map_permissions [⟨"goblin1", none, "vision"⟩] props).2).filter
        (fun p => decide (p.name = "SHARED_VISION" ∧ p.value = "goblin1"))
      = [⟨none, "SHARED_VISION", "goblin1"⟩] ∧
    (⟨none, "SHARED_VISION", "goblin1"⟩ : MapProperty) ∉ props := by
  rw [map_permissions_single props "goblin1" "vision" "SHARED_VISION" none rfl]
  refine ⟨rfl, ?_, fun hmem => hno _ hmem ⟨rfl, rfl⟩⟩
  rw [List.filter_append, List.filter_filter]
  have h1 : props.filter (fun a =>
      decide (a.name = "SHARED_VISION" ∧ a.value = "goblin1") &&
      decide (¬(a.user = none ∧ a.name ∈ PERMISSIONS ∧ a.value = "goblin1")))
      = [] := by
    rw [List.filter_eq_nil_iff]
    intro p hp hcg
    rw [Bool.and_eq_true] at hcg
    exact hno p hp (of_decide_eq_true hcg.1)
  rw [h1]
  simp

/-- Witness for `c6_vision_default_assign` at a concrete input. -/
theorem c6_vision_default_assign_witness :
    (map_permissions [⟨"goblin1", none, "vision"⟩]
       [⟨some 1, "SHARED_CONTROL", "orc"⟩]).1 = 200 ∧
    ((map_permissions [⟨"goblin1", none, "vision"⟩]
        [⟨some 1, "SHARED_CONTROL", "orc"⟩]).2).filter
        (fun p => decide (p.name = "SHARED_VISION" ∧ p.value = "goblin1"))
      = [⟨none, "SHARED_VISION", "goblin1"⟩] ∧
    (⟨none, "SHARED_VISION", "goblin1"⟩ : MapProperty) ∉
      [(⟨some 1, "SHARED_CONTROL", "orc"⟩ : MapProperty)] :=
  c6_vision_default_assign [⟨some 1, "SHARED_CONTROL", "orc"⟩] (by decide)

/-- C8 fails on the code: the clearing before the first assignment
touching user 2 deletes ALL seven permission kinds for the entity in
that scope, not only the kinds referenced — here an assign of `control`
deletes user 2's `SHARED_VISION` row for the same entity. -/
theorem c8_counterexample :
    (⟨some 2, "SHARED_VISION", "e"⟩ : MapProperty) ∈
      [(⟨some 2, "SHARED_VISION", "e"⟩ : MapProperty)] ∧
    (⟨some 2, "SHARED_VISION", "e"⟩ : MapProperty) ∉
      (map_permissions [⟨"e", some 2, "control"⟩]
        [⟨some 2, "SHARED_VISION", "e"⟩]).2 := by
  exact ⟨by decide, by decide⟩

/-- C8 amended: the clearing step deletes every row of ANY of the seven
permission kinds for the named entity in the target scope (rows with
other names, other entities, or other scopes survive), and then the new
row is appended. -/
theorem c8_clearing_scope (props : List MapProperty) (E k pname : String)
    (scope : Option Nat) (hk : permKind k = some pname) :
    (map_permissions [⟨E, scope, k⟩] props).2
      = props.filter (fun p =>
          decide (¬(p.user = scope ∧ p.name ∈ PERMISSIONS ∧ p.value = E)))
        ++ [⟨scope, pname, E⟩] := by
  rw [map_permissions_single props E k pname scope hk]

/-- Witness for `c8_clearing_scope` at a concrete input. -/
theorem c8_clearing_scope_witness :
    (map_permissions [⟨"e", some 2, "control"⟩]
       [⟨some 2, "SHARED_VISION", "e"⟩]).2
      = [(⟨some 2, "SHARED_VISION", "e"⟩ : MapProperty)].filter (fun p =>
          decide (¬(p.user = some 2 ∧ p.name ∈ PERMISSIONS ∧ p.value = "e")))
        ++ [⟨some 2, "SHARED_CONTROL", "e"⟩] :=
  c8_clearing_scope [⟨some 2, "SHARED_VISION", "e"⟩] "e" "control"
    "SHARED_CONTROL" (some 2) rfl

/-- The append loop keeps the log sorted by creation time and bounded
by the next insertion timestamp it returns. -/
lemma appendLoop_sorted (maps : List String) (caller : Nat) :
    ∀ (posted : List PostedAction) (log : List Action) (t : Nat),
      List.Pairwise (fun a b : Action => a.created ≤ b.created) log →
      (∀ a ∈ log, a.created < t) →
      List.Pairwise (fun a b : Action => a.created ≤ b.created)
          (appendLoop maps caller posted log t).2.1 ∧
      ∀ a ∈ (appendLoop maps caller posted log t).2.1,
        a.created < (appendLoop maps caller posted log t).2.2 := by
  intro posted
  induction posted with
  | nil => intro log t hp ht; exact ⟨hp, ht⟩
  | cons a rest ih =>
    intro log t hp ht
    have hsnoc : ∀ x : Action, x.created = t →
        List.Pairwise (fun a b : Action => a.created ≤ b.created)
          (log ++ [x]) ∧ ∀ b ∈ log ++ [x], b.created < t + 1 := by
      intro x hx
      constructor
      · rw [List.pairwise_append]
        refine ⟨hp, List.pairwise_singleton _ _, ?_⟩
        intro c hc b hb
        rw [List.mem_singleton] at hb
        rw [hb, hx]
        exact le_of_lt (ht c hc)
      · intro b hb
        rcases List.mem_append.mp hb with h | h
        · exact lt_trans (ht b h) (Nat.lt_succ_self t)
        · rw [List.mem_singleton] at h
          rw [h, hx]
          exact Nat.lt_succ_self t
    rcases hm : a.mapRef with _ | m
    · have h1 := hsnoc ⟨caller, none, a.payload, t⟩ rfl
      have h2 := ih (log ++ [⟨caller, none, a.payload, t⟩]) (t + 1) h1.1 h1.2
      simpa [appendLoop, hm] using h2
    · by_cases hin : m ∈ maps
      · have h1 := hsnoc ⟨caller, some m, a.payload, t⟩ rfl
        have h2 := ih (log ++ [⟨caller, some m, a.payload, t⟩]) (t + 1) h1.1 h1.2
        simpa [appendLoop, hm, hin] using h2
      · simpa [appendLoop, hm, hin] using ⟨hp, ht⟩

/-- In a log sorted by creation time, the last row's timestamp bounds
every row's timestamp. -/
lemma getLast?_created_max :
    ∀ (l : List Action),
      List.Pairwise (fun a b : Action => a.created ≤ b.created) l →
      ∀ x, l.getLast? = some x → ∀ b ∈ l, b.created ≤ x.created := by
  intro l
  induction l with
  | nil => intro _ x hx; simp at hx
  | cons a l ih =>
    intro hp x hx b hb
    rw [List.pairwise_cons] at hp
    cases l with
    | nil =>
      simp only [List.getLast?_singleton, Option.some.injEq] at hx
      rw [List.mem_singleton] at hb
      rw [hb, hx]
    | cons c l' =>
      rw [List.getLast?_cons_cons] at hx
      have hxl : x ∈ c :: l' := List.mem_of_mem_getLast? hx
      rcases List.mem_cons.mp hb with h | h
      · exact h ▸ le_trans (hp.1 x hxl) (le_refl _)
      · exact ih hp.2 x hx b h

/-- C9 confirmed: the action-append loop is not atomic.  With map `m1`
in the campaign, posting an action without a map reference followed by
one referencing the absent map `m2` fails with status 404 while the
first action is already committed to the log. -/
theorem c9_partial_append :
    (update_actions ["m1"] 1 0 [⟨none, "p1"⟩, ⟨some "m2", "p2"⟩] [] 10).status
      = 404 ∧
    (update_actions ["m1"] 1 0 [⟨none, "p1"⟩, ⟨some "m2", "p2"⟩] [] 10).log
      = [⟨1, none, "p1", 10⟩] := by
  exact ⟨by decide, by decide⟩

/-- C2 confirmed: the action list returned by `update_actions` never
contains an action authored by the caller, whatever the cursor, the
posted batch, or the prior log. -/
theorem c2_sync_self_exclusion (maps : List String) (caller cursor : Nat)
    (posted : List PostedAction) (log : List Action) (t0 : Nat) :
    ∀ a ∈ (update_actions maps caller cursor posted log t0).actions,
      ¬a.user = caller := by
  intro a ha
  unfold update_actions at ha
  rcases h : appendLoop maps caller posted log t0 with ⟨b, log1, t1⟩
  rw [h] at ha
  cases b
  · simp at ha
  · simp only [List.mem_filter, decide_eq_true_eq] at ha
    exact ha.2

/-- Witness for `c2_sync_self_exclusion` at a concrete input. -/
theorem c2_sync_self_exclusion_witness :
    ¬(Action.mk 2 none "q" 5).user = 1 :=
  c2_sync_self_exclusion [] 1 0 [] [⟨2, none, "q", 5⟩] 6
    ⟨2, none, "q", 5⟩ (by decide)

/-- C3 confirmed: on a successful sync over a log whose creation times
are non-decreasing in insertion order (the store's invariant) and below
the next insertion timestamp, the returned cursor is ≥ the supplied
cursor; it stays equal to the supplied cursor when no action is newer,
and otherwise it is the creation time of the latest action newer than
the supplied cursor (computed before self-exclusion). -/
theorem c3_cursor_monotonic (maps : List String) (caller cursor : Nat)
    (posted : List PostedAction) (log : List Action) (t0 : Nat)
    (hmono : List.Pairwise (fun a b : Action => a.created ≤ b.created) log)
    (ht : ∀ a ∈ log, a.created < t0) :
    (update_actions maps caller cursor posted log t0).status = 200 →
    ∃ d, (update_actions maps caller cursor posted log t0).date = some d ∧
      cursor ≤ d ∧
      ((∀ a ∈ (update_actions maps caller cursor posted log t0).log,
          a.created ≤ cursor) → d = cursor) ∧
      (∀ a ∈ (update_actions maps caller cursor posted log t0).log,
          cursor < a.created → a.created ≤ d) ∧
      ((∃ a ∈ (update_actions maps caller cursor posted log t0).log,
          cursor < a.created) →
        ∃ a ∈ (update_actions maps caller cursor posted log t0).log,
          cursor < a.created ∧ d = a.created) := by
  have hs := appendLoop_sorted maps caller posted log t0 hmono ht
  unfold update_actions
  rcases h : appendLoop maps caller posted log t0 with ⟨b, log1, t1⟩
  rw [h] at hs
  cases b
  · intro hst; exact absurd hst (by simp)
  · intro _
    rcases hl : (log1.filter (fun a => decide (cursor < a.created))).getLast?
      with _ | x
    · refine ⟨cursor, by simp [hl], le_refl _, fun _ => rfl, ?_, ?_⟩
      · intro a ha hlt
        rw [List.getLast?_eq_none_iff, List.filter_eq_nil_iff] at hl
        exact absurd (decide_eq_true hlt) (hl a ha)
      · rintro ⟨a, ha, hlt⟩
        rw [List.getLast?_eq_none_iff, List.filter_eq_nil_iff] at hl
        exact absurd (decide_eq_true hlt) (hl a ha)
    · have hxmem := List.mem_of_mem_getLast? hl
      rw [List.mem_filter, decide_eq_true_eq] at hxmem
      have hfsorted : List.Pairwise (fun a b : Action => a.created ≤ b.created)
          (log1.filter (fun a => decide (cursor < a.created))) :=
        hs.1.sublist (List.filter_sublist log1) |>.imp (fun h => h)
      have hmax := getLast?_created_max _ hfsorted x hl
      refine ⟨x.created, by simp [hl], le_of_lt hxmem.2, ?_, ?_, ?_⟩
      · intro hall
        exact absurd (hall x hxmem.1) (not_le.mpr hxmem.2)
      · intro a ha hlt
        exact hmax a (List.mem_filter.mpr ⟨ha, decide_eq_true hlt⟩)
      · intro _
        exact ⟨x, hxmem.1, hxmem.2, rfl⟩

/-- Witness for `c3_cursor_monotonic` at a concrete input. -/
theorem c3_cursor_monotonic_witness :
    ∃ d, (update_actions ["m1"] 1 3 [⟨some "m1", "p"⟩]
            [⟨2, none, "q", 4⟩] 5).date = some d ∧
      3 ≤ d ∧
      ((∀ a ∈ (update_actions ["m1"] 1 3 [⟨some "m1", "p"⟩]
            [⟨2, none, "q", 4⟩] 5).log, a.created ≤ 3) → d = 3) ∧
      (∀ a ∈ (update_actions ["m1"] 1 3 [⟨some "m1", "p"⟩]
            [⟨2, none, "q", 4⟩] 5).log, 3 < a.created → a.created ≤ d) ∧
      ((∃ a ∈ (update_actions ["m1"] 1 3 [⟨some "m1", "p"⟩]
            [⟨2, none, "q", 4⟩] 5).log, 3 < a.created) →
        ∃ a ∈ (update_actions ["m1"] 1 3 [⟨some "m1", "p"⟩]
            [⟨2, none, "q", 4⟩] 5).log, 3 < a.created ∧ d = a.created) :=
  c3_cursor_monotonic ["m1"] 1 3 [⟨some "m1", "p"⟩] [⟨2, none, "q", 4⟩] 5
    (by decide) (by decide) (by decide)

/-- C4 fails on the code: with a default row `(theme, forest)` and a
user-1 row `(theme, cave)`, the bulk read for user 1 returns BOTH
pairs — the active query is a plain union of the two scopes, with no
shadowing of the default row. -/
theorem c4_counterexample :
    load_map_properties
        [⟨none, "theme", "forest"⟩, ⟨some 1, "theme", "cave"⟩] 1
      = [("theme", "forest"), ("theme", "cave")] ∧
    ¬(load_map_properties
        [⟨none, "theme", "forest"⟩, ⟨some 1, "theme", "cave"⟩] 1).countP
        (fun q => decide (q.1 = "theme")) = 1 := by
  exact ⟨by decide, by decide⟩

/-- C4 amended: when both a default row and a user-scoped row with the
same name exist (and they are the only rows of that name in those two
scopes), the bulk read returns BOTH pairs for that name — two pairs,
the default one not shadowed — in both the caller-keyed and the
target-user-keyed variants. -/
theorem c4_bulk_read_union (props : List MapProperty) (u : Nat)
    (n v0 v1 : String)
    (hd : (⟨none, n, v0⟩ : MapProperty) ∈ props)
    (hu : (⟨some u, n, v1⟩ : MapProperty) ∈ props)
    (hcount : props.countP (fun p =>
        decide (p.name = n ∧ (p.user = some u ∨ p.user = none))) = 2) :
    (n, v0) ∈ load_map_properties props u ∧
    (n, v1) ∈ load_map_properties props u ∧
    (load_map_properties props u).countP (fun q => decide (q.1 = n)) = 2 ∧
    (n, v0) ∈ load_map_properties_for_user props u ∧
    (n, v1) ∈ load_map_properties_for_user props u ∧
    (load_map_properties_for_user props u).countP
        (fun q => decide (q.1 = n)) = 2 := by
  have heq : load_map_properties_for_user props u = load_map_properties props u :=
    rfl
  have hmem0 : (n, v0) ∈ load_map_properties props u := by
    refine List.mem_map.mpr ⟨⟨none, n, v0⟩, List.mem_filter.mpr ⟨hd, ?_⟩, rfl⟩
    simp
  have hmem1 : (n, v1) ∈ load_map_properties props u := by
    refine List.mem_map.mpr ⟨⟨some u, n, v1⟩, List.mem_filter.mpr ⟨hu, ?_⟩, rfl⟩
    simp
  have hcnt : (load_map_properties props u).countP
      (fun q => decide (q.1 = n)) = 2 := by
    unfold load_map_properties
    rw [List.countP_map, List.countP_filter]
    rw [← hcount]
    refine List.countP_congr ?_
    intro p _
    simp [Function.comp, Bool.and_eq_true, decide_eq_true_eq]
  exact ⟨hmem0, hmem1, hcnt, heq ▸ hmem0, heq ▸ hmem1, heq ▸ hcnt⟩

/-- Witness for `c4_bulk_read_union` at a concrete input. -/
theorem c4_bulk_read_union_witness :
    ("theme", "forest") ∈ load_map_properties
        [⟨none, "theme", "forest"⟩, ⟨some 1, "theme", "cave"⟩] 1 ∧
    ("theme", "cave") ∈ load_map_properties
        [⟨none, "theme", "forest"⟩, ⟨some 1, "theme", "cave"⟩] 1 ∧
    (load_map_properties
        [⟨none, "theme", "forest"⟩, ⟨some 1, "theme", "cave"⟩] 1).countP
        (fun q => decide (q.1 = "theme")) = 2 ∧
    ("theme", "forest") ∈ load_map_properties_for_user
        [⟨none, "theme", "forest"⟩, ⟨some 1, "theme", "cave"⟩] 1 ∧
    ("theme", "cave") ∈ load_map_properties_for_user
        [⟨none, "theme", "forest"⟩, ⟨some 1, "theme", "cave"⟩] 1 ∧
    (load_map_properties_for_user
        [⟨none, "theme", "forest"⟩, ⟨some 1, "theme", "cave"⟩] 1).countP
        (fun q => decide (q.1 = "theme")) = 2 :=
  c4_bulk_read_union [⟨none, "theme", "forest"⟩, ⟨some 1, "theme", "cave"⟩]
    1 "theme" "forest" "cave" (by decide) (by decide) (by decide)

/-- A list of length at most one that contains `a` is `[a]`. -/
lemma mem_len_le_one {α : Type u} {l : List α} {a : α}
    (ha : a ∈ l) (hl : l.length ≤ 1) : l = [a] := by
  cases l with
  | nil => simp at ha
  | cons b l' =>
    cases l' with
    | nil => rw [List.mem_singleton] at ha; rw [ha]
    | cons c l'' => simp at hl

/-- C7 confirmed: under the row-uniqueness invariant (at most one row
per (scope, name)), the single-property resolve returns the user-scoped
row's value when it exists, else the default row's value, and 404 when
neither exists. -/
theorem c7_resolve_property (props : List CampaignProperty) (u : Nat)
    (n v : String)
    (hU : (props.filter (fun p =>
        decide (p.user = some u ∧ p.name = n))).length ≤ 1)
    (hD : (props.filter (fun p =>
        decide (p.user = none ∧ p.name = n))).length ≤ 1) :
    ((⟨some u, n, v⟩ : CampaignProperty) ∈ props →
      load_campaign_property props u n = (200, some v)) ∧
    ((¬∃ p ∈ props, p.user = some u ∧ p.name = n) →
      (⟨none, n, v⟩ : CampaignProperty) ∈ props →
      load_campaign_property props u n = (200, some v)) ∧
    ((¬∃ p ∈ props, p.user = some u ∧ p.name = n) →
      (¬∃ p ∈ props, p.user = none ∧ p.name = n) →
      load_campaign_property props u n = (404, none)) := by
  refine ⟨?_, ?_, ?_⟩
  · intro hm
    have hf : props.filter (fun p => decide (p.user = some u ∧ p.name = n))
        = [⟨some u, n, v⟩] :=
      mem_len_le_one (List.mem_filter.mpr ⟨hm, by simp⟩) hU
    unfold load_campaign_property
    rw [hf]
  · intro hne hm
    have hfU : props.filter (fun p => decide (p.user = some u ∧ p.name = n))
        = [] := by
      rw [List.filter_eq_nil_iff]
      intro p hp hdec
      exact hne ⟨p, hp, of_decide_eq_true hdec⟩
    have hfD : props.filter (fun p => decide (p.user = none ∧ p.name = n))
        = [⟨none, n, v⟩] :=
      mem_len_le_one (List.mem_filter.mpr ⟨hm, by simp⟩) hD
    unfold load_campaign_property
    rw [hfU, hfD]
  · intro hneU hneD
    have hfU : props.filter (fun p => decide (p.user = some u ∧ p.name = n))
        = [] := by
      rw [List.filter_eq_nil_iff]
      intro p hp hdec
      exact hneU ⟨p, hp, of_decide_eq_true hdec⟩
    have hfD : props.filter (fun p => decide (p.user = none ∧ p.name = n))
        = [] := by
      rw [List.filter_eq_nil_iff]
      intro p hp hdec
      exact hneD ⟨p, hp, of_decide_eq_true hdec⟩
    unfold load_campaign_property
    rw [hfU, hfD]

/-- Witness for `c7_resolve_property` at a concrete input: the default
row answers when no user-scoped row exists. -/
theorem c7_resolve_property_witness :
    load_campaign_property [⟨none, "theme", "forest"⟩] 1 "theme"
      = (200, some "forest") :=
  (c7_resolve_property [⟨none, "theme", "forest"⟩] 1 "theme" "forest"
      (by decide) (by decide)).2.1 (by decide) (by decide)

/-- C10 confirmed: for an existing campaign whose property rows contain
no `IS_MASTER` row, the campaign-detail read fails with 404, and a 200
response requires exactly one `IS_MASTER` row. -/
theorem c10_is_master_required (props : List CampaignProperty) (u : Nat) :
    (props.filter (fun p => decide (p.name = "IS_MASTER")) = [] →
      (load_campaign props u).1 = 404) ∧
    ((load_campaign props u).1 = 200 →
      (props.filter (fun p => decide (p.name = "IS_MASTER"))).length = 1) := by
  constructor
  · intro h
    unfold load_campaign
    rw [h]
  · intro hst
    unfold load_campaign at hst
    rcases h : props.filter (fun p => decide (p.name = "IS_MASTER"))
      with _ | ⟨m, rest⟩
    · rw [h] at hst
      simp at hst
    · rcases rest with _ | ⟨m2, rest2⟩
      · rw [h]
        rfl
      · rw [h] at hst
        simp at hst

/-- Witness for `c10_is_master_required` at a concrete input. -/
theorem c10_is_master_required_witness :
    (load_campaign [⟨some 1, "theme", "x"⟩] 1).1 = 404 :=
  (c10_is_master_required [⟨some 1, "theme", "x"⟩] 1).1 (by decide)

end World
